import Mathlib

/-!
Shallow embedding of `zfit/core/constraint.py` (constraint classes for a
statistical model-fitting framework) and proofs of the specification claims.

Parameters are mutable named scalars owned by the surrounding framework; we
model the mutable state as an explicit environment `Param → ℝ` giving each
parameter its current value.  Fallible construction and evaluation are
modelled with `Except`.  The tensor backend's multivariate-normal
distribution is modelled over Mathlib real matrices.
-/

open scoped BigOperators

/-- A `zfit.Parameter`: a named mutable scalar.  Identity matters (parameters
are used as dictionary keys), so we carry a `uid` distinguishing objects with
equal names. The current value lives in an environment `Param → ℝ`. -/
structure Param where
  name : String
  uid : ℕ
deriving DecidableEq, Repr

/-- The observed-value pseudo-parameter produced by
`convert_to_parameter(x_, f"{p.name}_obs")`: a fresh parameter-like holder
wrapping a literal numeric value. -/
structure ObsParam where
  name : String
  val : ℝ

/-- Errors raised by the constraint module: `ShapeIncompatibleError` carrying
the observed sizes reported in its message.  `shapeIncompatible2` is the
`SamplableConstraint.__init__` failure (lengths of `x` and `params`);
`shapeIncompatible3` is the `create_covariance` failure (length of `x`,
length of `mu`, and the first two dimensions of the covariance). -/
inductive ZfitError where
  | shapeIncompatible2 : ℕ → ℕ → ZfitError
  | shapeIncompatible3 : ℕ → ℕ → ℕ × ℕ → ZfitError
deriving DecidableEq, Repr

/-- The method `SamplableConstraint.__init__`: converts `x` to a container, raises
`ShapeIncompatibleError` when `len(x) != len(params)` (the message reports
both lengths), and otherwise builds the observed-value parameters
`convert_to_parameter(x_, f"{p.name}_obs")`, zipping `x` with the values of
the params dict in order. -/
def samplableInit (x : List ℝ) (params : List Param) :
    Except ZfitError (List ObsParam) :=
  if x.length ≠ params.length then
    .error (.shapeIncompatible2 x.length params.length)
  else
    .ok ((x.zip params).map fun xp => ⟨xp.2.name ++ "_obs", xp.1⟩)

/-- The `sigma` argument of `GaussianConstraint`, classified by the rank of
the tensor it converts to: a scalar (ndims 0), a vector of standard
deviations (ndims 1), or a full covariance matrix (ndims > 1). -/
inductive SigmaInput (α : Type) where
  | scalar : α → SigmaInput α
  | vector : List α → SigmaInput α
  | matrix : List (List α) → SigmaInput α

/-- The backend primitive `tf.linalg.tensor_diag`: the square matrix with the given list on the
diagonal and zeros elsewhere. -/
def diagMat (l : List ℝ) : List (List ℝ) :=
  (List.range l.length).map fun i =>
    (List.range l.length).map fun j => if j = i then l.getD i 0 else 0

/-- The body of `GaussianConstraint.create_covariance` that builds the
covariance from `sigma`: ndims > 1 ⇒ `sigma` itself; ndims = 1 ⇒
`tensor_diag(pow(sigma, 2))`; ndims = 0 ⇒ reshape to a length-1 vector and
then `tensor_diag(pow(sigma, 2))`. -/
def createCovariance (sigma : SigmaInput ℝ) : List (List ℝ) :=
  match sigma with
  | .matrix m => m
  | .vector v => diagMat (v.map fun s => s ^ 2)
  | .scalar s => diagMat ([s].map fun t => t ^ 2)

/-- Dimension `covariance.shape[0]` of a list-of-rows matrix. -/
def matShape0 (m : List (List ℝ)) : ℕ := m.length

/-- Dimension `covariance.shape[1]` of a list-of-rows matrix (rows are rectangular for
tensors; we read the first row). -/
def matShape1 (m : List (List ℝ)) : ℕ := (m.headD []).length

/-- The state of a constructed `GaussianConstraint`: the observed-value
parameters `x` (built by `SamplableConstraint.__init__`), the params dict
(`{f"param_{i}": p for i, p in enumerate(mu)}`, kept as the ordered list of
its values), the stored `mu` tuple, and the stored `sigma` (captured by the
`create_covariance` closure). -/
structure GaussianState where
  x : List ObsParam
  params : List Param
  mu : List Param
  sigma : SigmaInput ℝ

/-- The method `GaussianConstraint.__init__`: converts `mu` to a container, builds the
params dict from `mu`, stores `mu` and the deferred covariance closure, and
runs `SamplableConstraint.__init__` (which performs the `x`/`params` length
check and builds the observed-value parameters).  No covariance computation
happens here: `create_covariance` is only stored as a closure. -/
def GaussianConstraint.mk (x : List ℝ) (mu : List Param) (sigma : SigmaInput ℝ) :
    Except ZfitError GaussianState :=
  (samplableInit x mu).map fun obs => ⟨obs, mu, mu, sigma⟩

/-- The shape check inside `create_covariance`:
`x_tensor.shape[0] == mu.shape[0] == covariance.shape[0] == covariance.shape[1]`. -/
def covOK (st : GaussianState) : Prop :=
  st.x.length = st.mu.length ∧
    st.mu.length = matShape0 (createCovariance st.sigma) ∧
    matShape0 (createCovariance st.sigma) = matShape1 (createCovariance st.sigma)

instance (st : GaussianState) : Decidable (covOK st) := by
  unfold covOK; infer_instance

/-- The `covariance` property: invokes the stored closure, which rebuilds the
covariance from `sigma` and performs the shape check, raising
`ShapeIncompatibleError` naming the length of `x`, the length of `mu` and
the covariance dimensions when they disagree. -/
def GaussianState.covarianceE (st : GaussianState) :
    Except ZfitError (List (List ℝ)) :=
  let cov := createCovariance st.sigma
  if covOK st then .ok cov
  else .error (.shapeIncompatible3 st.x.length st.mu.length
    (matShape0 cov, matShape1 cov))

/-- Modelled from the spec: the backend distribution type
`tfd.MultivariateNormalFullCovariance` is an external collaborator (the spec
requires only "a multivariate-normal-style distribution type exposing
`log_prob(vector) -> scalar`").  Its log-density is the standard
multivariate-normal one:
`log N(v; loc, cov) = -(1/2) * ((v-loc)ᵀ cov⁻¹ (v-loc) + log((2π)^n * det cov))`. -/
noncomputable def mvnLogProb (n : ℕ) (loc : Fin n → ℝ)
    (cov : Matrix (Fin n) (Fin n) ℝ) (v : Fin n → ℝ) : ℝ :=
  -(2⁻¹ * (Matrix.dotProduct (v - loc) (Matrix.mulVec cov⁻¹ (v - loc)) +
    Real.log ((2 * Real.pi) ^ n * cov.det)))

/-- The negative log-density of the backend multivariate normal, fed with
the stacked observed values, the stacked location values and the covariance
matrix, all given as lists the way the code stacks its tensors. -/
noncomputable def negLogMvnL (xs mus : List ℝ) (cov : List (List ℝ)) : ℝ :=
  -(mvnLogProb xs.length
    (fun i => mus.getD i 0)
    (Matrix.of fun i j => (cov.getD i []).getD j 0)
    (fun i => xs.getD i 0))

/-- The method `DistributionConstraint._value` specialised along the `GaussianConstraint`
construction path: the `distribution` property evaluates the `dist_params`
closure `lambda: dict(loc=mu, covariance_matrix=self.covariance)` — so the
covariance closure runs here, with its shape check — and `_value` returns
`-distribution.log_prob(self._x_array)`, where `_x_array` stacks the current
values of the observed-value parameters and `loc` holds the current values of
the `mu` parameters read from the environment. -/
noncomputable def GaussianState.valueE (st : GaussianState) (env : Param → ℝ) :
    Except ZfitError ℝ :=
  st.covarianceE.map fun cov =>
    negLogMvnL (st.x.map ObsParam.val) (st.mu.map env) cov

/-- Column slicing `sample[:, i]`: column `i` of the backend's n×N draw (a list of n rows). -/
def sampleCols (draw : List (List ℝ)) (i : ℕ) : List ℝ :=
  draw.map fun row => row.getD i 0

/-- The method `SamplableConstraint.sample`: draws `sample = self._sample(n)` (an n×N
array, abstracted here as the list of its rows) and returns the mapping
`{p: sample[:, i] for i, p in enumerate(self.x)}`, kept as an ordered
association list since the keys are the distinct observed-value parameter
objects. -/
def sampleDict (x : List ObsParam) (draw : List (List ℝ)) :
    List (ObsParam × List ℝ) :=
  x.enum.map fun ip => (ip.2, sampleCols draw ip.1)

/-- A `dist_params`/`dist_kwargs` argument of `DistributionConstraint`: either
a literal value or a zero-argument callable (a closure over live parameter
state, modelled as a function of the environment), re-invoked on each
`distribution` access. -/
inductive Provider (β : Type) where
  | lit : β → Provider β
  | fn : ((Param → ℝ) → β) → Provider β

/-- The step `if callable(params): params = params()`: evaluate a provider against the
current parameter state. -/
def Provider.evalP {β : Type} : Provider β → (Param → ℝ) → β
  | .lit b, _ => b
  | .fn f, env => f env

/-- Extra keyword arguments forwarded to the backend distribution factory
(e.g. the `validate_args` flag of `GaussianConstraint`). -/
def KwArgs : Type := List (String × Bool)

/-- A backend distribution instance as constructed by the `distribution`
property: the factory applied to the evaluated `dist_params`, the evaluated
`dist_kwargs`, and the name `self.name + "_tfp"`. -/
structure DistInstance (β : Type) where
  args : β
  kwargs : KwArgs
  instName : String

/-- The state of a `DistributionConstraint`: name, observed-value parameters
`x`, params dict (ordered values), and the stored `dist_params` and
`dist_kwargs` providers.  `β` is the shape of the evaluated `dist_params`
mapping. -/
structure DistState (β : Type) where
  name : String
  x : List ObsParam
  params : List Param
  dist_params : Provider β
  dist_kwargs : Provider KwArgs

/-- The method `DistributionConstraint.__init__`: runs `SamplableConstraint.__init__`
(length check, observed-value parameters) and stores `dist_params` and
`self.dist_kwargs = dist_kwargs if dist_kwargs is not None else {}`. -/
def DistributionConstraint.mk {β : Type} (name : String) (x : List ℝ)
    (params : List Param) (dist_params : Provider β)
    (dist_kwargs : Option (Provider KwArgs)) :
    Except ZfitError (DistState β) :=
  (samplableInit x params).map fun obs =>
    ⟨name, obs, params, dist_params, dist_kwargs.getD (.lit [])⟩

/-- The `distribution` property: evaluates `dist_params` and `dist_kwargs`
(calling each if callable) against current parameter state and constructs a
fresh backend distribution instance named `self.name + "_tfp"`.  Nothing is
cached: the result is a function of the current environment. -/
def DistState.distribution {β : Type} (st : DistState β) (env : Param → ℝ) :
    DistInstance β :=
  ⟨st.dist_params.evalP env, st.dist_kwargs.evalP env, st.name ++ "_tfp"⟩

/-- The state of a `SimpleConstraint`: the user-supplied zero-argument
function (a closure over live parameter state, modelled as a function of the
environment) and the params list kept for dependency bookkeeping. -/
structure SimpleConstraintS where
  simple_func : (Param → ℝ) → ℝ
  params : List Param

/-- The method `SimpleConstraint.__init__`: stores `func` and builds the params dict
`param_0..param_{n-1}` in input order (kept as the ordered list of values). -/
def SimpleConstraint.mk (func : (Param → ℝ) → ℝ) (params : List Param) :
    SimpleConstraintS :=
  ⟨func, params⟩

/-- The method `SimpleConstraint._value` (reached through `BaseConstraint.value`): calls
`self._simple_func()` and returns the result unmodified. -/
def SimpleConstraintS.value (c : SimpleConstraintS) (env : Param → ℝ) : ℝ :=
  c.simple_func env

/-- Modelled from the spec: `BaseConstraint._get_dependents` delegates to
`self._extract_dependents(self.get_params())`, both of which live in
`zfit/core/baseobject.py`, not part of this source tree; per the spec the
default implementation "returns exactly `params`" as a set. -/
def getDependents (params : List Param) : Finset Param :=
  params.toFinset

/-- The property `GaussianConstraint.mu`: returns the stored tuple of constrained
parameters (no mutation). -/
def GaussianState.muP (st : GaussianState) : List Param :=
  st.mu

/-- Explicit state-passing form of `value()`: the method reads `self` and
assigns no attribute, so the post-state is the input state. -/
noncomputable def GaussianState.valueOp (st : GaussianState) (env : Param → ℝ) :
    Except ZfitError ℝ × GaussianState :=
  (st.valueE env, st)

/-- Explicit state-passing form of the `covariance` property (no attribute
assignment in the source). -/
def GaussianState.covarianceOp (st : GaussianState) :
    Except ZfitError (List (List ℝ)) × GaussianState :=
  (st.covarianceE, st)

/-- Explicit state-passing form of the `x` property (no attribute
assignment in the source). -/
def GaussianState.xOp (st : GaussianState) : List ObsParam × GaussianState :=
  (st.x, st)

/-- Explicit state-passing form of `sample(n)` (the method only reads
`self.x` and the backend draw; no attribute assignment in the source). -/
def GaussianState.sampleOp (st : GaussianState) (draw : List (List ℝ)) :
    List (ObsParam × List ℝ) × GaussianState :=
  (sampleDict st.x draw, st)

/-- Explicit state-passing form of the `distribution` property along the
Gaussian path: `dist_params` is the closure
`lambda: dict(loc=mu, covariance_matrix=self.covariance)` and `dist_kwargs`
is `dict(validate_args=True)`; no attribute assignment in the source. -/
def GaussianState.distributionOp (st : GaussianState) (env : Param → ℝ) :
    DistInstance (List ℝ × Except ZfitError (List (List ℝ))) × GaussianState :=
  (⟨(st.mu.map env, st.covarianceE), [("validate" ++ "_args", true)],
    "GaussianConstraint" ++ "_tfp"⟩, st)

/-- The covariance matrix as the spec words it, for comparison with the
code's `create_covariance`: "Σ is sigma² (as a 1×1 matrix) when sigma is a
scalar, diag(sigma_i²) when sigma is a length-N vector, and sigma itself
when sigma is an N×N matrix". -/
def specCovariance (sigma : SigmaInput ℝ) : List (List ℝ) :=
  match sigma with
  | .scalar s => [[s ^ 2]]
  | .vector v => diagMat (v.map fun s => s ^ 2)
  | .matrix m => m

/-- The value as the spec words it: "the scalar `-log N(x; mu, Σ)`" with Σ
built from `sigma` by the spec's rank rule. -/
noncomputable def specNegLogGauss (xs mus : List ℝ) (sigma : SigmaInput ℝ) : ℝ :=
  negLogMvnL xs mus (specCovariance sigma)

/-- A concrete parameter used by the witnesses. -/
def pA : Param := ⟨"a", 0⟩

/-- A second concrete parameter used by the witnesses. -/
def pB : Param := ⟨"b", 1⟩

/-- A third concrete parameter used by the witnesses. -/
def pC : Param := ⟨"c", 2⟩

/-- A concrete environment assigning `pA ↦ 1` and every other parameter 2. -/
noncomputable def envAB : Param → ℝ := fun p => if p.uid = 0 then 1 else 2

/-- The single-parameter Gaussian constraint `x=[5], mu=[pA], sigma=2`. -/
def gaussEx1 : GaussianState :=
  ⟨[⟨"a" ++ "_obs", 5⟩], [pA], [pA], .scalar 2⟩

/-- The two-parameter Gaussian constraint of the spec's concrete scenario:
`x=[1,2], mu=[pA,pB], sigma=[1,1]`. -/
def gaussEx2 : GaussianState :=
  ⟨[⟨"a" ++ "_obs", 1⟩, ⟨"b" ++ "_obs", 2⟩], [pA, pB], [pA, pB], .vector [1, 1]⟩

/-- A mis-shaped Gaussian constraint: `x` and `mu` have length 2 (so
construction succeeds) but `sigma` is a length-3 vector, giving a 3×3
covariance. -/
def gaussExBad : GaussianState :=
  ⟨[⟨"a" ++ "_obs", 1⟩, ⟨"b" ++ "_obs", 2⟩], [pA, pB], [pA, pB],
    .vector [1, 1, 1]⟩

/-- A single-parameter standard-normal constraint `x=[1], mu=[pA], sigma=1`,
used to exhibit parameter mutation changing `value()`. -/
def gaussExMut : GaussianState :=
  ⟨[⟨"a" ++ "_obs", 1⟩], [pA], [pA], .scalar 1⟩

/-- Destructuring a successful `GaussianConstraint` construction: the length
check passed and the state is the one built by `__init__`. -/
lemma GaussianConstraint.mk_ok {xs : List ℝ} {ps : List Param}
    {sigma : SigmaInput ℝ} {st : GaussianState}
    (h : GaussianConstraint.mk xs ps sigma = .ok st) :
    xs.length = ps.length ∧
      st = ⟨(xs.zip ps).map (fun xp => ⟨xp.2.name ++ "_obs", xp.1⟩),
        ps, ps, sigma⟩ := by
  unfold GaussianConstraint.mk samplableInit at h
  by_cases hl : xs.length = ps.length
  · simp only [hl, ne_eq, not_true_eq_false, if_false, Except.map] at h
    exact ⟨hl, (Except.ok.injEq _ _ ▸ h).symm⟩
  · simp [hl, Except.map] at h

/-- The observed-value parameters keep exactly the input values of `x`. -/
lemma obs_map_val {xs : List ℝ} {ps : List Param} (h : xs.length = ps.length) :
    ((xs.zip ps).map
        (fun xp => (⟨xp.2.name ++ "_obs", xp.1⟩ : ObsParam))).map ObsParam.val
      = xs := by
  rw [List.map_map]
  have hcomp : (ObsParam.val ∘ fun xp : ℝ × Param =>
      (⟨xp.2.name ++ "_obs", xp.1⟩ : ObsParam)) = Prod.fst := rfl
  rw [hcomp, List.map_fst_zip _ _ (le_of_eq h)]

/-- There is one observed-value parameter per entry of `x`. -/
lemma obs_length {xs : List ℝ} {ps : List Param} (h : xs.length = ps.length) :
    ((xs.zip ps).map
        (fun xp => (⟨xp.2.name ++ "_obs", xp.1⟩ : ObsParam))).length
      = xs.length := by
  simp [List.length_zip, h]

/-- C3: constructing a `SamplableConstraint` with `len(x) != len(params)`
raises `ShapeIncompatibleError` reporting both lengths; with equal lengths
construction succeeds and no such failure is raised. -/
theorem samplableInit_length_check (x : List ℝ) (ps : List Param) :
    (x.length ≠ ps.length →
      samplableInit x ps = .error (.shapeIncompatible2 x.length ps.length)) ∧
    (x.length = ps.length → ∃ obs, samplableInit x ps = .ok obs ∧
      ∀ e, samplableInit x ps ≠ .error e) := by
  constructor
  · intro hne
    simp [samplableInit, hne]
  · intro heq
    refine ⟨(x.zip ps).map (fun xp => ⟨xp.2.name ++ "_obs", xp.1⟩), ?_, ?_⟩
    · simp [samplableInit, heq]
    · intro e
      simp [samplableInit, heq]

/-- Witness for C3 at `x=[1,2]`, `params=[pA,pB,pC]` (mismatch, error names
lengths 2 and 3) and at `x=[1]`, `params=[pA]` (match, success). -/
theorem samplableInit_length_check_witness :
    samplableInit [1, 2] [pA, pB, pC]
        = .error (.shapeIncompatible2 2 3) ∧
      ∃ obs, samplableInit [1] [pA] = .ok obs ∧
        ∀ e, samplableInit [1] [pA] ≠ .error e :=
  ⟨(samplableInit_length_check [1, 2] [pA, pB, pC]).1 (by decide),
    (samplableInit_length_check [1] [pA]).2 (by decide)⟩

/-- C7: `SimpleConstraint.value()` calls the user-supplied zero-argument
function and returns its result unmodified, independent of the `params`
passed for dependency bookkeeping; in particular the constant function `3.0`
yields exactly `3.0` for every current value of the parameter. -/
theorem simpleConstraint_value_unmodified :
    (∀ (f : (Param → ℝ) → ℝ) (ps : List Param) (env : Param → ℝ),
      (SimpleConstraint.mk f ps).value env = f env) ∧
    (∀ (f : (Param → ℝ) → ℝ) (ps ps' : List Param) (env : Param → ℝ),
      (SimpleConstraint.mk f ps).value env
        = (SimpleConstraint.mk f ps').value env) ∧
    (∀ (p : Param) (env : Param → ℝ),
      (SimpleConstraint.mk (fun _ => (3 : ℝ)) [p]).value env = 3) :=
  ⟨fun _ _ _ => rfl, fun _ _ _ _ => rfl, fun _ _ => rfl⟩

/-- C8: `get_dependents()` returns exactly the set of parameters in the
`params` mapping, and on a `GaussianConstraint` this is exactly the set of
`mu` parameters. -/
theorem gaussian_getDependents (xs : List ℝ) (mus : List Param)
    (sigma : SigmaInput ℝ) (st : GaussianState)
    (h : GaussianConstraint.mk xs mus sigma = .ok st) :
    getDependents st.params = mus.toFinset ∧
      getDependents st.params = st.mu.toFinset := by
  obtain ⟨-, rfl⟩ := GaussianConstraint.mk_ok h
  exact ⟨rfl, rfl⟩

/-- Witness for C8 on the concrete constraint `gaussEx2`. -/
theorem gaussian_getDependents_witness :
    getDependents gaussEx2.params = [pA, pB].toFinset :=
  (gaussian_getDependents [1, 2] [pA, pB] (.vector [1, 1]) gaussEx2 rfl).1

/-- C9: constructing a `DistributionConstraint` with `dist_kwargs` omitted
(`None`) succeeds (given the length precondition of the samplable base) and
stores an empty mapping, so every `distribution` access passes only the
evaluated `dist_params` plus the derived name to the factory. -/
theorem distConstraint_none_kwargs {β : Type} (name : String) (x : List ℝ)
    (ps : List Param) (dp : Provider β) (h : x.length = ps.length) :
    ∃ st, DistributionConstraint.mk name x ps dp none = .ok st ∧
      st.dist_kwargs = .lit [] ∧
      ∀ env, st.distribution env = ⟨dp.evalP env, [], name ++ "_tfp"⟩ := by
  refine ⟨⟨name, (x.zip ps).map (fun xp => ⟨xp.2.name ++ "_obs", xp.1⟩),
    ps, dp, .lit []⟩, ?_, rfl, fun env => rfl⟩
  simp [DistributionConstraint.mk, samplableInit, h, Option.getD, Except.map]

/-- Witness for C9 at a concrete one-parameter constraint. -/
theorem distConstraint_none_kwargs_witness :
    ∃ st, DistributionConstraint.mk "DistributionConstraint" [1] [pA]
        (Provider.lit (0 : ℕ)) none = .ok st ∧
      st.dist_kwargs = .lit [] ∧
      ∀ env, st.distribution env
        = ⟨0, [], "DistributionConstraint" ++ "_tfp"⟩ :=
  distConstraint_none_kwargs "DistributionConstraint" [1] [pA]
    (Provider.lit 0) (by decide)

/-- C10: a successfully constructed `GaussianConstraint` has exactly one
observed-value parameter per entry of `params`, in the same order (the i-th
is named after the i-th param and holds the i-th entry of `x`), and this
structural state is left unchanged by `value()`, `sample(n)` and the
accesses of `x`, `covariance` and `distribution`. -/
theorem gaussian_structural_invariant (xs : List ℝ) (mus : List Param)
    (sigma : SigmaInput ℝ) (st : GaussianState)
    (h : GaussianConstraint.mk xs mus sigma = .ok st) :
    st.x.length = st.params.length ∧ st.params = mus ∧ st.mu = mus ∧
    (∀ i (hi : i < st.x.length) (hp : i < st.params.length)
        (hx : i < xs.length),
      (st.x.get ⟨i, hi⟩).name = (st.params.get ⟨i, hp⟩).name ++ "_obs" ∧
      (st.x.get ⟨i, hi⟩).val = xs.get ⟨i, hx⟩) ∧
    (∀ env, (st.valueOp env).2 = st) ∧
    (∀ draw, (st.sampleOp draw).2 = st) ∧
    st.covarianceOp.2 = st ∧ st.xOp.2 = st ∧
    (∀ env, (st.distributionOp env).2 = st) := by
  obtain ⟨hl, rfl⟩ := GaussianConstraint.mk_ok h
  refine ⟨by simp [List.length_zip, hl], rfl, rfl,
    fun i hi hp hx => ?_,
    fun _ => rfl, fun _ => rfl, rfl, rfl, fun _ => rfl⟩
  simp only [List.get_eq_getElem, List.getElem_map, List.getElem_zip]
  exact ⟨trivial, trivial⟩

/-- C5: `sample(n)` returns a mapping whose keys are exactly the
observed-value parameters derived from `x`, in construction order, and whose
value for the i-th key is column `i` of the underlying n×N draw, a series of
length `n`. -/
theorem sample_keys_columns (x : List ObsParam) (draw : List (List ℝ))
    (n : ℕ) (hn : draw.length = n) :
    (sampleDict x draw).map Prod.fst = x ∧
    (sampleDict x draw).length = x.length ∧
    ∀ i (hi : i < (sampleDict x draw).length) (hx : i < x.length),
      (sampleDict x draw).get ⟨i, hi⟩ = (x.get ⟨i, hx⟩, sampleCols draw i) ∧
      (sampleCols draw i).length = n := by
  refine ⟨?_, by simp [sampleDict], fun i hi hx => ⟨?_, by simp [sampleCols, hn]⟩⟩
  · rw [sampleDict, List.map_map]
    have hcomp : (Prod.fst ∘ fun ip : ℕ × ObsParam =>
        (ip.2, sampleCols draw ip.1)) = Prod.snd := rfl
    rw [hcomp, List.enum_map_snd]
  · simp only [sampleDict, List.get_eq_getElem, List.getElem_map,
      List.getElem_enum]

/-- Witness for C5 on a concrete two-parameter constraint and a concrete
3×2 draw. -/
theorem sample_keys_columns_witness :
    (sampleDict gaussEx2.x [[10, 20], [30, 40], [50, 60]]).map Prod.fst
        = gaussEx2.x ∧
      (sampleCols [[10, 20], [30, 40], [50, 60]] 1).length = 3 :=
  ⟨(sample_keys_columns gaussEx2.x [[10, 20], [30, 40], [50, 60]] 3 rfl).1,
   ((sample_keys_columns gaussEx2.x [[10, 20], [30, 40], [50, 60]] 3 rfl).2.2
      1 (by simp [sampleDict, gaussEx2]) (by simp [gaussEx2])).2⟩

/-- The diagonal matrix built by `tensor_diag` has one row per entry. -/
lemma diagMat_length (l : List ℝ) : (diagMat l).length = l.length := by
  simp [diagMat]

/-- Each row of the diagonal matrix has one entry per diagonal element. -/
lemma diagMat_shape1 (l : List ℝ) (h : 0 < l.length) :
    matShape1 (diagMat l) = l.length := by
  rcases l with - | ⟨a, l⟩
  · simp at h
  · simp [diagMat, matShape1, List.range_succ_eq_map, List.headD]

/-- The entries of the diagonal matrix: the diagonal holds the list entries,
everything else is zero. -/
lemma diagMat_entry (l : List ℝ) (i j : ℕ) (hi : i < l.length)
    (hj : j < l.length) :
    ((diagMat l).getD i []).getD j 0 = if j = i then l.getD i 0 else 0 := by
  have h1 : i < (diagMat l).length := by simpa [diagMat_length] using hi
  rw [List.getD_eq_getElem _ _ h1]
  simp only [diagMat, List.getElem_map, List.getElem_range]
  have h2 : j < ((List.range l.length).map
      fun k => if k = i then l.getD i 0 else 0).length := by simpa using hj
  rw [List.getD_eq_getElem _ _ h2]
  simp only [List.getElem_map, List.getElem_range]

/-- C4: `create_covariance` classifies `sigma` by its rank: a scalar is
reshaped to a length-1 vector, squared and diagonalised into a 1×1
covariance; a rank-1 `sigma` yields `diag(sigma²)` elementwise; a matrix
`sigma` is used directly; and the `covariance` property returns the matrix
so built. -/
theorem covariance_rank_rule (st : GaussianState) (h : covOK st) :
    st.covarianceE = .ok (createCovariance st.sigma) ∧
    (∀ s : ℝ, createCovariance (.scalar s) = [[s ^ 2]]) ∧
    (∀ v : List ℝ,
      (createCovariance (.vector v)).length = v.length ∧
      ∀ i j (hi : i < v.length) (hj : j < v.length),
        ((createCovariance (.vector v)).getD i []).getD j 0
          = if j = i then (v.getD i 0) ^ 2 else 0) ∧
    (∀ m : List (List ℝ), createCovariance (.matrix m) = m) := by
  refine ⟨by simp [GaussianState.covarianceE, h], fun s => rfl,
    fun v => ⟨by simp [createCovariance, diagMat_length], fun i j hi hj => ?_⟩,
    fun m => rfl⟩
  have hi' : i < (v.map fun s => s ^ 2).length := by simpa using hi
  have hj' : j < (v.map fun s => s ^ 2).length := by simpa using hj
  rw [createCovariance, diagMat_entry _ _ _ hi' hj']
  rcases eq_or_ne j i with rfl | hne
  · simp only [if_pos rfl]
    rw [List.getD_eq_getElem _ _ hi', List.getElem_map,
      List.getD_eq_getElem _ _ hi]
  · simp [hne]

/-- Witness for C4 on the concrete constraint `gaussEx1` (scalar sigma 2). -/
theorem covariance_rank_rule_witness :
    gaussEx1.covarianceE = .ok (createCovariance gaussEx1.sigma) ∧
      createCovariance (.scalar (2 : ℝ)) = [[(2 : ℝ) ^ 2]] :=
  ⟨(covariance_rank_rule gaussEx1 (by decide)).1,
   (covariance_rank_rule gaussEx1 (by decide)).2.1 2⟩

/-- The code's covariance builder agrees with the spec's wording of Σ for
every rank of `sigma`. -/
lemma createCovariance_eq_spec (sigma : SigmaInput ℝ) :
    createCovariance sigma = specCovariance sigma := by
  cases sigma <;> rfl

/-- When the shape check passes, `value()` reduces to the negative
log-density at the stacked observed values, location values and covariance. -/
lemma valueE_ok_of_covOK (st : GaussianState) (env : Param → ℝ)
    (h : covOK st) :
    st.valueE env = .ok (negLogMvnL (st.x.map ObsParam.val) (st.mu.map env)
      (createCovariance st.sigma)) := by
  simp [GaussianState.valueE, GaussianState.covarianceE, h, Except.map]

/-- The multivariate-normal negative log-density at its own location with
identity covariance: the quadratic form vanishes and the determinant is 1. -/
lemma mvnLogProb_self_id (n : ℕ) (loc : Fin n → ℝ) :
    mvnLogProb n loc 1 loc = -(2⁻¹ * (n * Real.log (2 * Real.pi))) := by
  unfold mvnLogProb
  simp [Matrix.zero_dotProduct, Matrix.det_one, Real.log_pow]

/-- A one-element `getD` accessor over `Fin 1` is the constant function. -/
lemma constFun_one (c : ℝ) :
    (fun i : Fin 1 => [c].getD (i : ℕ) 0) = fun _ => c := by
  funext i
  fin_cases i
  rfl

/-- The one-dimensional multivariate-normal log-density with unit
covariance. -/
lemma mvnLogProb_one (a b : ℝ) :
    mvnLogProb 1 (fun _ => b) 1 (fun _ => a)
      = -(2⁻¹ * ((a - b) ^ 2 + Real.log (2 * Real.pi))) := by
  unfold mvnLogProb
  simp only [inv_one, Matrix.one_mulVec, Matrix.dotProduct,
    Fin.sum_univ_one, Pi.sub_apply, Matrix.det_one, pow_one, mul_one]
  ring_nf

/-- The concrete 2×2 covariance of the spec scenario is the identity
matrix. -/
lemma covEx2_matrix :
    (Matrix.of fun i j : Fin 2 =>
        ((createCovariance (.vector [1, 1])).getD (i : ℕ) []).getD (j : ℕ) 0)
      = (1 : Matrix (Fin 2) (Fin 2) ℝ) := by
  have hc : createCovariance (.vector [1, 1]) = [[1, 0], [0, 1]] := by
    norm_num [createCovariance, diagMat, List.range_succ]
  rw [hc]
  ext i j
  fin_cases i <;> fin_cases j <;> simp [Matrix.one_apply]

/-- The concrete 1×1 unit covariance built from scalar `sigma = 1`. -/
lemma covMut_matrix :
    (Matrix.of fun i j : Fin 1 =>
        ((createCovariance (.scalar 1)).getD (i : ℕ) []).getD (j : ℕ) 0)
      = (1 : Matrix (Fin 1) (Fin 1) ℝ) := by
  have hc : createCovariance (.scalar 1) = [[1]] := by
    norm_num [createCovariance, diagMat, List.range_succ]
  rw [hc]
  ext i j
  fin_cases i <;> fin_cases j <;> simp [Matrix.one_apply]

/-- The one-dimensional value with unit covariance, at observed value `a`
and location `b`. -/
lemma negLogMvnL_one (a b : ℝ) :
    negLogMvnL [a] [b] (createCovariance (.scalar 1))
      = 2⁻¹ * ((a - b) ^ 2 + Real.log (2 * Real.pi)) := by
  show -(mvnLogProb 1 (fun i => [b].getD (i : ℕ) 0)
    (Matrix.of fun i j : Fin 1 =>
      ((createCovariance (.scalar 1)).getD (i : ℕ) []).getD (j : ℕ) 0)
    (fun i => [a].getD (i : ℕ) 0)) = _
  rw [constFun_one, constFun_one, covMut_matrix, mvnLogProb_one]
  ring

/-- The spec's concrete scenario: observed values equal to the location with
identity covariance give `log(2π)`. -/
lemma negLogMvnL_ex2 :
    negLogMvnL [1, 2] [1, 2] (createCovariance (.vector [1, 1]))
      = Real.log (2 * Real.pi) := by
  show -(mvnLogProb 2 (fun i => [(1 : ℝ), 2].getD (i : ℕ) 0)
    (Matrix.of fun i j : Fin 2 =>
      ((createCovariance (.vector [1, 1])).getD (i : ℕ) []).getD (j : ℕ) 0)
    (fun i => [(1 : ℝ), 2].getD (i : ℕ) 0)) = _
  rw [covEx2_matrix, mvnLogProb_self_id]
  push_cast
  ring

/-- C1: for every valid input with consistent shapes, `value()` returns the
scalar `-log N(x; mu, Σ)` with Σ built from `sigma` by the spec's rank rule;
in particular for `mu=[1,2]`, `sigma=[1,1]`, `x=[1,2]` the covariance is the
2×2 identity and `value()` equals `log(2π)`. -/
theorem gaussian_value_matches_spec (xs : List ℝ) (mus : List Param)
    (sigma : SigmaInput ℝ) (env : Param → ℝ) (st : GaussianState)
    (hmk : GaussianConstraint.mk xs mus sigma = .ok st)
    (hsh : covOK st) :
    st.valueE env = .ok (specNegLogGauss xs (mus.map env) sigma) ∧
    (GaussianConstraint.mk [1, 2] [pA, pB] (.vector [1, 1]) = .ok gaussEx2 ∧
      gaussEx2.valueE envAB = .ok (Real.log (2 * Real.pi))) := by
  constructor
  · obtain ⟨hl, rfl⟩ := GaussianConstraint.mk_ok hmk
    rw [valueE_ok_of_covOK _ _ hsh]
    simp only [specNegLogGauss, ← createCovariance_eq_spec]
    rw [obs_map_val hl]
  · refine ⟨rfl, ?_⟩
    have hok : covOK gaussEx2 := by decide
    have h1 : gaussEx2.valueE envAB
        = .ok (negLogMvnL [1, 2] (gaussEx2.mu.map envAB)
            (createCovariance (.vector [1, 1]))) :=
      valueE_ok_of_covOK _ _ hok
    have h2 : gaussEx2.mu.map envAB = [1, 2] := by
      show [envAB pA, envAB pB] = [1, 2]
      norm_num [envAB, pA, pB]
    rw [h1, h2, negLogMvnL_ex2]

/-- Witness for C1 on the spec's concrete scenario (the covariance shape
check holds there). -/
theorem gaussian_value_matches_spec_witness :
    gaussEx2.valueE envAB
      = .ok (specNegLogGauss [1, 2] ([pA, pB].map envAB) (.vector [1, 1])) :=
  (gaussian_value_matches_spec [1, 2] [pA, pB] (.vector [1, 1]) envAB
    gaussEx2 rfl (by decide)).1

/-- C2: on a constructed `GaussianConstraint` whose covariance shape
disagrees with `x` and `mu`, the `ShapeIncompatibleError` naming all three
observed sizes is raised at the first access of `covariance` or `value()`;
construction itself never raises the three-size failure. -/
theorem gaussian_lazy_shape_error (xs : List ℝ) (mus : List Param)
    (sigma : SigmaInput ℝ) (st : GaussianState) (env : Param → ℝ)
    (hmk : GaussianConstraint.mk xs mus sigma = .ok st)
    (hbad : ¬ covOK st) :
    (st.covarianceE = .error (.shapeIncompatible3 st.x.length st.mu.length
        (matShape0 (createCovariance st.sigma),
          matShape1 (createCovariance st.sigma))) ∧
      st.valueE env = .error (.shapeIncompatible3 st.x.length st.mu.length
        (matShape0 (createCovariance st.sigma),
          matShape1 (createCovariance st.sigma)))) ∧
    (∀ (xs' : List ℝ) (mus' : List Param) (sigma' : SigmaInput ℝ) e,
      GaussianConstraint.mk xs' mus' sigma' = .error e →
        ∃ a b, e = .shapeIncompatible2 a b) := by
  refine ⟨⟨?_, ?_⟩, ?_⟩
  · simp [GaussianState.covarianceE, hbad]
  · simp [GaussianState.valueE, GaussianState.covarianceE, hbad, Except.map]
  · intro xs' mus' sigma' e he
    unfold GaussianConstraint.mk samplableInit at he
    by_cases hl : xs'.length = mus'.length
    · simp [hl, Except.map] at he
    · simp only [ne_eq, hl, not_false_eq_true, if_true, Except.map,
        Except.error.injEq] at he
      exact ⟨_, _, he.symm⟩

/-- Witness for C2: `x` and `mu` of length 2 with a length-3 sigma vector —
construction succeeds, the covariance access fails naming sizes 2, 2 and
(3, 3). -/
theorem gaussian_lazy_shape_error_witness :
    GaussianConstraint.mk [1, 2] [pA, pB] (.vector [1, 1, 1])
        = .ok gaussExBad ∧
      gaussExBad.covarianceE = .error (.shapeIncompatible3 2 2 (3, 3)) :=
  ⟨rfl, ((gaussian_lazy_shape_error [1, 2] [pA, pB] (.vector [1, 1, 1])
      gaussExBad (fun _ => 0) rfl (by decide)).1).1⟩

/-- C6: each `distribution` access re-evaluates `dist_params` and
`dist_kwargs` (calling them if callable) against current parameter state and
builds a fresh instance named after the constraint; consequently mutating a
parameter bound into `mu` changes the result of a subsequent `value()` call
on the same constraint object. -/
theorem distribution_recomputed_each_access :
    (∀ (β : Type) (st : DistState β) (env : Param → ℝ),
      st.distribution env
        = ⟨st.dist_params.evalP env, st.dist_kwargs.evalP env,
            st.name ++ "_tfp"⟩) ∧
    gaussExMut.valueE (fun _ => 1) = .ok (2⁻¹ * Real.log (2 * Real.pi)) ∧
    gaussExMut.valueE (fun _ => 2)
        = .ok (2⁻¹ * (1 + Real.log (2 * Real.pi))) ∧
    gaussExMut.valueE (fun _ => 1) ≠ gaussExMut.valueE (fun _ => 2) := by
  have hok : covOK gaussExMut := by decide
  have h1 : gaussExMut.valueE (fun _ => 1)
      = .ok (negLogMvnL [1] [1] (createCovariance (.scalar 1))) :=
    valueE_ok_of_covOK _ _ hok
  have h2 : gaussExMut.valueE (fun _ => 2)
      = .ok (negLogMvnL [1] [2] (createCovariance (.scalar 1))) :=
    valueE_ok_of_covOK _ _ hok
  rw [negLogMvnL_one] at h1 h2
  have h1' : gaussExMut.valueE (fun _ => 1)
      = .ok (2⁻¹ * Real.log (2 * Real.pi)) := by
    rw [h1]; norm_num
  have h2' : gaussExMut.valueE (fun _ => 2)
      = .ok (2⁻¹ * (1 + Real.log (2 * Real.pi))) := by
    rw [h2]; norm_num
  refine ⟨fun β st env => rfl, h1', h2', ?_⟩
  rw [h1', h2']
  intro heq
  have hx := Except.ok.inj heq
  linarith [hx]

/-- Witness for C10 on the concrete constraint `gaussEx2`. -/
theorem gaussian_structural_invariant_witness :
    gaussEx2.x.length = gaussEx2.params.length ∧
      (∀ env, (gaussEx2.valueOp env).2 = gaussEx2) :=
  ⟨(gaussian_structural_invariant [1, 2] [pA, pB] (.vector [1, 1])
      gaussEx2 rfl).1,
   (gaussian_structural_invariant [1, 2] [pA, pB] (.vector [1, 1])
      gaussEx2 rfl).2.2.2.2.1⟩
